import Mathlib

/-!
Verification of the sfr training-loop orchestration

Shallow embedding of the training-loop code of the `sfr` repository:

* `experiments/sl/train.py` — supervised training loop (`train`), checkpoint
  writer (`checkpoint`), early-stopper wiring;
* `src/train.py` — RL driver (`train`): episode collection, warm-up random
  actions, agent training, cudnn flag setting, seed-initialisation fallback;
* `src/rl/models/transitions/mlp.py` — transition-model `init` with
  `predict_fn` and `train_fn`;
* `src/models/transitions/base.py` — `TransitionModel` NamedTuple.

Metric values (validation nll, training losses) are modelled as rationals,
model/optimizer states and file paths as strings, tensors as lists of
rationals.  External collaborators (the dataset, the neural network, the
environment, numpy's seeded RNG, the agent) are opaque parameters.
-/

namespace Sfr

/-! ## EarlyStopper

Modelled from the spec: the `EarlyStopper` class lives in
`experiments/sl/utils.py` / `src/rl/utils.py`, which are absent from the
sources; only its construction sites and call sites appear.  Per the spec it
is constructed with `patience`, tracks the best (lowest) metric seen and a
counter of consecutive non-improving observations; `observe(metric)` returns
true once the metric has failed to improve for `patience` consecutive
observations, false otherwise, and resets the counter to zero whenever an
improvement is observed; `reset()` restores the initial state.  `best = none`
stands for the initial `+inf` best value.  The optional
`min_prior_precision` guard is not modelled: the call sites in the sources
pass only the metric, so the guard cannot trigger there. -/
structure EarlyStopper where
  patience : Nat
  counter : Nat
  best : Option ℚ
deriving DecidableEq

/-- The freshly constructed (or `reset()`) stopper state. -/
def EarlyStopper.init (patience : Nat) : EarlyStopper :=
  { patience := patience, counter := 0, best := none }

/-- Model of `observe(metric)`: returns the stop flag together with the updated
stopper state.  An improving observation (metric strictly below the best
seen, with the initial best `+inf`) records the new best and resets the
counter; a non-improving one increments the counter and signals once the
counter has reached `patience`. -/
def EarlyStopper.observe (s : EarlyStopper) (metric : ℚ) : Bool × EarlyStopper :=
  match s.best with
  | none => (false, { s with best := some metric, counter := 0 })
  | some b =>
    if metric < b then
      (false, { s with best := some metric, counter := 0 })
    else
      (decide (s.patience ≤ s.counter + 1), { s with counter := s.counter + 1 })

/-- Feed a whole sequence of metric observations to the stopper, collecting
the returned stop flags. -/
def EarlyStopper.observeSeq (s : EarlyStopper) : List ℚ → List Bool
  | [] => []
  | m :: ms =>
    let ob := s.observe m
    ob.1 :: ob.2.observeSeq ms

/-! ## Checkpoint writer (`checkpoint` in `experiments/sl/train.py`) -/

/-- Embeds `os.path.join(save_dir, fname)` for the relative constant filename used
by `checkpoint`. -/
def pathJoin (dir fname : String) : String := dir ++ "/" ++ fname

/-- A file written by `torch.save`: its path and its content, a mapping
modelled as an association list from key to the serialized component. -/
structure SavedFile where
  path : String
  content : List (String × String)
deriving DecidableEq

/-- Embedding of `checkpoint(sfr, optimizer, save_dir)`: builds the state mapping
`{"model": ..., "optimizer": ...}`, writes it as a single file at
`os.path.join(save_dir, "best_ckpt_dict.pt")` and returns that path.
The result is the one file written paired with the returned path. -/
def checkpoint (sfrState optimizerState : String) (saveDir : String) :
    SavedFile × String :=
  let state := [("model", sfrState), ("optimizer", optimizerState)]
  let fname := "best_ckpt_dict.pt"
  let saveName := pathJoin saveDir fname
  ({ path := saveName, content := state }, saveName)

/-! ## Supervised training loop (`train` in `experiments/sl/train.py`) -/

/-- The configuration fields of `TrainConfig` the loop bookkeeping reads:
`n_epochs`, `logging_epoch_freq`, `early_stop.patience`, and the run
directory `run.dir` that checkpoints are saved under. -/
structure SLCfg where
  nEpochs : Nat
  loggingEpochFreq : Nat
  earlyStopPatience : Nat
  saveDir : String

/-- The loop bookkeeping state of the supervised `train` run, together with
event logs recording what the run did: which epochs ran their batch
optimisation, at which epochs metrics were evaluated, at which epochs (and
to which paths) `checkpoint` was called, at which epochs the early stopper
was consulted, and whether/where the stop signal fired. -/
structure SLState where
  bestNll : Option ℚ
  stopper : EarlyStopper
  epochsRun : List Nat
  evals : List Nat
  ckpts : List Nat
  ckptPaths : List String
  stopperCalls : List Nat
  stopped : Bool
  stoppedAt : Option Nat
deriving DecidableEq

/-- The initial run state: `best_nll = float("inf")` (modelled as `none`)
and a stopper constructed with
`patience = int(cfg.early_stop.patience / cfg.logging_epoch_freq)`. -/
def slInit (cfg : SLCfg) : SLState :=
  { bestNll := none
    stopper := EarlyStopper.init (cfg.earlyStopPatience / cfg.loggingEpochFreq)
    epochsRun := []
    evals := []
    ckpts := []
    ckptPaths := []
    stopperCalls := []
    stopped := false
    stoppedAt := none }

/-- The body of the `if epoch % cfg.logging_epoch_freq == 0:` block at epoch
`e` with validation nll `v`: record the evaluation; if `v < best_nll` call
`checkpoint` (recording the epoch and the returned path) and update
`best_nll` to `v`; then consult the early stopper with `v`, recording the
consultation and the resulting stop flag.  The serialized model/optimizer
payloads are irrelevant to the recorded path (see `checkpoint`), so fixed
placeholder strings are passed. -/
def slEvalStep (cfg : SLCfg) (st : SLState) (e : Nat) (v : ℚ) : SLState :=
  let improved : Bool :=
    match st.bestNll with
    | none => true
    | some b => decide (v < b)
  let ob := st.stopper.observe v
  { st with
    evals := st.evals ++ [e]
    bestNll := if improved then some v else st.bestNll
    ckpts := if improved then st.ckpts ++ [e] else st.ckpts
    ckptPaths :=
      if improved then
        st.ckptPaths ++ [(checkpoint "sfr_state" "optimizer_state" cfg.saveDir).2]
      else st.ckptPaths
    stopper := ob.2
    stopperCalls := st.stopperCalls ++ [e]
    stopped := ob.1
    stoppedAt := if ob.1 then some e else st.stoppedAt }

/-- One epoch of the supervised loop: the inner batch loop (forward, loss,
backward, optimizer step over `train_loader`) runs unconditionally — it is
abstracted into recording the epoch in `epochsRun` and the epoch's resulting
validation nll oracle `nll` — and the evaluation block runs exactly when
`epoch % cfg.logging_epoch_freq == 0`. -/
def slEpochStep (cfg : SLCfg) (nll : Nat → ℚ) (st : SLState) (e : Nat) : SLState :=
  let st0 := { st with epochsRun := st.epochsRun ++ [e] }
  if e % cfg.loggingEpochFreq = 0 then slEvalStep cfg st0 e (nll e) else st0

/-- A `for`-loop over the index list `es` that applies `step` and `break`s
as soon as the predicate `stopFlag` holds of the new state — the shape of
both training loops in the sources. -/
def runBreak {σ : Type} (step : σ → Nat → σ) (stopFlag : σ → Bool) :
    σ → List Nat → σ
  | st, [] => st
  | st, e :: rest =>
    let st' := step st e
    if stopFlag st' then st' else runBreak step stopFlag st' rest

/-- The whole supervised training loop
`for epoch in range(cfg.n_epochs): ... break`, with `nll e` the validation
nll that `compute_metrics` would report at epoch `e`'s evaluation. -/
def slTrain (cfg : SLCfg) (nll : Nat → ℚ) : SLState :=
  runBreak (slEpochStep cfg nll) SLState.stopped (slInit cfg)
    (List.range cfg.nEpochs)

/-! ## Transition-model training loop
(`train_fn` inside `init` in `src/rl/models/transitions/mlp.py`) -/

/-- Bookkeeping of the transition-model gradient loop: its stopper, which
iterations ran (sample, forward, MSE loss, backward, optimizer step), and
whether/where the early-stop signal fired. -/
structure TMState where
  stopper : EarlyStopper
  itersRun : List Nat
  stopped : Bool
  stoppedAt : Option Nat
deriving DecidableEq

/-- One iteration `i` of `train_fn`'s `for i in range(num_iterations)` body:
the gradient step runs (recorded in `itersRun`, with `loss i` the resulting
training loss), then `stop_flag = early_stopper(loss)` is consulted; the
flag decides the `break`. -/
def tmStep (loss : Nat → ℚ) (st : TMState) (i : Nat) : TMState :=
  let ob := st.stopper.observe (loss i)
  { stopper := ob.2
    itersRun := st.itersRun ++ [i]
    stopped := ob.1
    stoppedAt := if ob.1 then some i else st.stoppedAt }

/-- Embedding of `train_fn(replay_buffer)`: `early_stopper.reset()` restores the initial
stopper state, then the loop runs `for i in range(num_iterations)` with a
`break` on the stop flag.  `loss i` stands for the MSE loss the sampled
batch produces at iteration `i`. -/
def train_fn (patience numIterations : Nat) (loss : Nat → ℚ) : TMState :=
  runBreak (tmStep loss) TMState.stopped
    { stopper := EarlyStopper.init patience
      itersRun := []
      stopped := false
      stoppedAt := none }
    (List.range numIterations)

/-! ## Transition-model records -/

/-- Field names of the `TransitionModel` NamedTuple declared in
`src/models/transitions/base.py`: `predict` and `train`. -/
def TransitionModel.fieldNames : List String := ["predict", "train"]

/-- Modelled from the spec: `src/rl/models/transitions/base.py`, the module
`mlp.py` imports its `TransitionModel` from, is absent from the sources.
Per the spec the callable bundle is "a record of predict/train/update
functions", matching the keyword arguments
`TransitionModel(predict=predict_fn, train=train_fn, update=dummy_update_fn)`
of the constructor call in `mlp.py`. -/
def RLTransitionModel.fieldNames : List String := ["predict", "train", "update"]

/-- The prediction record constructed by `predict_fn` in
`src/rl/models/transitions/mlp.py`; the `StatePrediction` type itself is
declared in `src/rl/custom_types.py`, absent from the sources, so its
fields are those the constructor call passes. -/
structure StatePrediction where
  state_mean : List ℚ
  state_var : ℚ
  noise_var : ℚ
deriving DecidableEq

/-- Elementwise tensor addition `state + delta_state`. -/
def vecAdd (xs ys : List ℚ) : List ℚ := List.zipWith (· + ·) xs ys

/-- Embedding of `predict_fn(state, action)` from `init` in
`src/rl/models/transitions/mlp.py`: concatenate state and action, run the
network on the concatenation, and return a `StatePrediction` with
`state_mean = state + delta_state`, `state_var = 0`, `noise_var = 0`. -/
def predict_fn (network : List ℚ → List ℚ) (state action : List ℚ) :
    StatePrediction :=
  let state_action_input := state ++ action
  let delta_state := network state_action_input
  { state_mean := vecAdd state delta_state
    state_var := 0
    noise_var := 0 }

/-! ## Seed initialisation fallback (both entry points) -/

/-- Modelled from the spec: `set_seed_everywhere` lives in the `utils`
modules, absent from the sources; it can raise, so it is modelled as an
arbitrary fallible call `Nat → Except String Unit`.  `seedInit` embeds the
`try: set_seed_everywhere(cfg.random_seed) except: ...` block of both
`train` entry points: on any exception from the first call, a fresh seed
(`random.randint(0, 10000)`, supplied here as the parameter `freshSeed`) is
drawn and `set_seed_everywhere` is called again with it — inside the
`except:` block, so an exception from that second call is not caught. -/
def seedInit (setSeedEverywhere : Nat → Except String Unit)
    (cfgSeed freshSeed : Nat) : Except String Unit :=
  match setSeedEverywhere cfgSeed with
  | .ok _ => .ok ()
  | .error _ => setSeedEverywhere freshSeed

/-! ## cudnn determinism flags (`src/train.py` lines 37–38) -/

/-- The `torch.backends.cudnn` module object: its two real configuration
flags plus, as Python objects accept arbitrary attribute assignment, an
association list of dynamically added attributes. -/
structure CudnnBackend where
  deterministic : Bool
  benchmark : Bool
  extra : List (String × Bool)
deriving DecidableEq

/-- Python attribute assignment `setattr(cudnn, name, v)`: assigning a name
that is not an existing attribute creates a new one and leaves the real
flags untouched. -/
def CudnnBackend.setAttr (b : CudnnBackend) (name : String) (v : Bool) :
    CudnnBackend :=
  if name = "deterministic" then { b with deterministic := v }
  else if name = "benchmark" then { b with benchmark := v }
  else { b with extra := (name, v) :: b.extra }

/-- The two assignments the RL driver performs before training
(`torch.backends.cudnn.determinstic = True` — note the spelling — and
`torch.backends.cudnn.benchmark = False`); the supervised entry point
performs the same two assignments via `eval('setattr(...)')` strings. -/
def rlSetCudnnFlags (b : CudnnBackend) : CudnnBackend :=
  (b.setAttr "determinstic" true).setAttr "benchmark" false

/-! ## RL driver episode loop (`train` in `src/train.py`)

The environment, the numpy RNG and the agent are external collaborators;
they enter the model as opaque parameters: `episodeLen ep` is the number of
`while not time_step.last()` iterations episode `ep` performs, `rng` is the
stream of values the seeded `np.random` produces for `uniform(-1, 1, ...)`
draws (indexed by a running draw counter), and `agentAct ep t` is whatever
`agent.select_action(...)` returns at step `t` of episode `ep`. -/

/-- A numpy action array: its values and its dtype tag. -/
structure Action where
  vals : List ℚ
  dtype : String
deriving DecidableEq

/-- The observable events of the RL driver loop body: a warm-up action drawn
by `np.random.uniform(lo, hi, shape).astype(dtype)` (recording the bounds of
the uniform call and the resulting array), a policy action from
`agent.select_action`, and a call to `agent.train(replay_buffer)`. -/
inductive RLEvent where
  | randomAct (ep t : Nat) (lo hi : ℚ) (a : Action)
  | policyAct (ep t : Nat) (a : Action)
  | trainCall (ep : Nat)
deriving DecidableEq

/-- The configuration fields the episode loop reads:
`cfg.num_train_episodes`, `cfg.init_random_episodes`, and the environment's
`action_spec()` shape (flattened) and dtype. -/
structure RLCfg where
  numTrainEpisodes : Nat
  initRandomEpisodes : Nat
  actionShape : Nat
  actionDtype : String

/-- The opaque external inputs of one driver run (see section comment). -/
structure RLInputs where
  rng : Nat → ℚ
  agentAct : Nat → Nat → Action
  episodeLen : Nat → Nat

/-- Embedding of `np.random.uniform(-1, 1, shape).astype(dtype)` at draw counter `d`: one
stream value per dimension of the action spec's shape, tagged with the
spec's dtype. -/
def npUniform (rng : Nat → ℚ) (d shape : Nat) (dtype : String) : Action :=
  { vals := (List.range shape).map fun j => rng (d + j), dtype := dtype }

/-- The `while not time_step.last():` collection loop of episode `ep`, with
`fuel` iterations left, `t` the current step index and `d` the RNG draw
counter: each iteration picks a random action (episodes below
`cfg.init_random_episodes`, advancing the draw counter by the action shape)
or consults the policy, then steps the environment and stores the
transition.  Returns the step events and the final draw counter. -/
def collectLoop (cfg : RLCfg) (inp : RLInputs) (ep : Nat) :
    Nat → Nat → Nat → List RLEvent × Nat
  | 0, _, d => ([], d)
  | fuel + 1, t, d =>
    if ep < cfg.initRandomEpisodes then
      let a := npUniform inp.rng d cfg.actionShape cfg.actionDtype
      let rest := collectLoop cfg inp ep fuel (t + 1) (d + cfg.actionShape)
      (RLEvent.randomAct ep t (-1) 1 a :: rest.1, rest.2)
    else
      let a := inp.agentAct ep t
      let rest := collectLoop cfg inp ep fuel (t + 1) d
      (RLEvent.policyAct ep t a :: rest.1, rest.2)

/-- One iteration of `for episode_idx in range(cfg.num_train_episodes)`:
collect a full episode, then — only for
`episode_idx >= cfg.init_random_episodes` — call
`agent.train(replay_buffer)` once. -/
def episodeRun (cfg : RLCfg) (inp : RLInputs) (ep d : Nat) :
    List RLEvent × Nat :=
  let collected := collectLoop cfg inp ep (inp.episodeLen ep) 0 d
  (collected.1 ++
      (if cfg.initRandomEpisodes ≤ ep then [RLEvent.trainCall ep] else []),
    collected.2)

/-- The episode loop over the index list `eps`, threading the RNG draw
counter; one event list per episode. -/
def rlEpisodes (cfg : RLCfg) (inp : RLInputs) :
    List Nat → Nat → List (List RLEvent)
  | [], _ => []
  | ep :: rest, d =>
    let er := episodeRun cfg inp ep d
    er.1 :: rlEpisodes cfg inp rest er.2

/-- A whole driver run: episodes `0, ..., cfg.num_train_episodes - 1`. -/
def rlRun (cfg : RLCfg) (inp : RLInputs) : List (List RLEvent) :=
  rlEpisodes cfg inp (List.range cfg.numTrainEpisodes) 0

/-- The action of a warm-up (random) action event. -/
def RLEvent.randomPayload : RLEvent → Option Action
  | .randomAct _ _ _ _ a => some a
  | _ => none

/-- Whether an event is an `agent.train` call. -/
def RLEvent.isTrain : RLEvent → Bool
  | .trainCall _ => true
  | _ => false

/-- The sequence of actions taken during the warm-up (random-action) phase
of a run, in order. -/
def warmupActions (cfg : RLCfg) (inp : RLInputs) : List Action :=
  ((rlRun cfg inp).map fun evs => evs.filterMap RLEvent.randomPayload).flatten

/-! ## Concrete scenario inputs used by the theorems below -/

/-- Supervised run with two strict improvements of the best nll:
nlls 10, 20, 5, 30 over four epochs, evaluated every epoch. -/
def c2Cfg : SLCfg :=
  { nEpochs := 4, loggingEpochFreq := 1, earlyStopPatience := 100,
    saveDir := "run" }

/-- Per-epoch validation nll oracle of the two-improvement scenario. -/
def c2Nll (e : Nat) : ℚ := [(10 : ℚ), 20, 5, 30].getD e 0

/-- A mid-run evaluation state with best nll 5 for the checkpoint-policy
witness. -/
def c2St : SLState :=
  { bestNll := some 5, stopper := EarlyStopper.init 3, epochsRun := [],
    evals := [], ckpts := [], ckptPaths := [], stopperCalls := [],
    stopped := false, stoppedAt := none }

/-- Supervised run with `logging_epoch_freq = 5` and `n_epochs = 12`. -/
def c7Cfg : SLCfg :=
  { nEpochs := 12, loggingEpochFreq := 5, earlyStopPatience := 100,
    saveDir := "run" }

/-- Strictly decreasing nll oracle, so the early stopper never signals. -/
def c7Nll (e : Nat) : ℚ := mkRat (-(e : ℤ)) 1

/-- Supervised run whose early stopper fires at epoch 1 (patience 1,
nll worsens from 5 to 7). -/
def c4Cfg : SLCfg :=
  { nEpochs := 5, loggingEpochFreq := 1, earlyStopPatience := 1,
    saveDir := "run" }

/-- Nll oracle improving once and then worsening. -/
def c4Nll (e : Nat) : ℚ := [(5 : ℚ), 7].getD e 9

/-- Transition-model loss oracle improving once and then worsening, so the
stopper (patience 1) fires at iteration 1. -/
def c4Loss (i : Nat) : ℚ := [(3 : ℚ), 4].getD i 9

/-- Small RL driver configuration: three episodes, one of them warm-up,
two-dimensional float32 actions. -/
def c6Cfg : RLCfg :=
  { numTrainEpisodes := 3, initRandomEpisodes := 1, actionShape := 2,
    actionDtype := "float32" }

/-- Concrete opaque inputs for the small RL driver run. -/
def c6Inp : RLInputs :=
  { rng := fun d => mkRat d 1
    agentAct := fun _ _ => { vals := [0, 0], dtype := "float32" }
    episodeLen := fun _ => 2 }

/-! ## Generic lemmas about the break-loop -/

/-- Under a step that appends its index to the `items` log, a break-loop run
processes exactly a prefix of the index list: all of it when no stop
occurred, and a non-empty prefix whose last element was the stopping step
otherwise. -/
theorem runBreak_take {σ : Type} (step : σ → Nat → σ) (stopFlag : σ → Bool)
    (items : σ → List Nat)
    (hstep : ∀ st e, items (step st e) = items st ++ [e]) :
    ∀ (es : List Nat) (st : σ), stopFlag st = false →
      ∃ k, k ≤ es.length ∧
        items (runBreak step stopFlag st es) = items st ++ es.take k ∧
        (stopFlag (runBreak step stopFlag st es) = false → k = es.length) ∧
        (stopFlag (runBreak step stopFlag st es) = true →
          1 ≤ k ∧ ∃ st0 e, es[k - 1]? = some e ∧
            runBreak step stopFlag st es = step st0 e ∧ stopFlag st0 = false) := by
  intro es
  induction es with
  | nil =>
    intro st hst
    refine ⟨0, Nat.le_refl 0, by simp [runBreak], fun _ => rfl, fun h => ?_⟩
    rw [show runBreak step stopFlag st [] = st from rfl, hst] at h
    exact absurd h (by simp)
  | cons e rest ih =>
    intro st hst
    cases hflag : stopFlag (step st e) with
    | true =>
      have hrun : runBreak step stopFlag st (e :: rest) = step st e := by
        simp [runBreak, hflag]
      refine ⟨1, by simp, ?_, ?_, ?_⟩
      · rw [hrun, hstep]; rfl
      · intro hf; rw [hrun, hflag] at hf; exact absurd hf (by simp)
      · intro _; exact ⟨Nat.le_refl 1, st, e, by simp, hrun, hst⟩
    | false =>
      have hrun : runBreak step stopFlag st (e :: rest) =
          runBreak step stopFlag (step st e) rest := by
        simp [runBreak, hflag]
      obtain ⟨k, hk, hitems, hfalse, htrue⟩ := ih (step st e) hflag
      refine ⟨k + 1, by simpa using Nat.succ_le_succ hk, ?_, ?_, ?_⟩
      · rw [hrun, hitems, hstep, List.take_succ_cons, List.append_assoc]; rfl
      · intro hf; rw [hrun] at hf; rw [hfalse hf]; simp
      · intro hf
        rw [hrun] at hf
        obtain ⟨hk1, st0, e', hget, heq, hst0⟩ := htrue hf
        refine ⟨by omega, st0, e', ?_, by rw [hrun]; exact heq, hst0⟩
        have hsucc : k + 1 - 1 = (k - 1) + 1 := by omega
        rw [hsucc, List.getElem?_cons_succ]
        exact hget

/-- A state projection preserved by every non-stopping step is preserved by
a whole run that never stopped. -/
theorem runBreak_mark {σ : Type} (step : σ → Nat → σ) (stopFlag : σ → Bool)
    (mark : σ → Option Nat)
    (hstep : ∀ st e, stopFlag (step st e) = false → mark (step st e) = mark st) :
    ∀ (es : List Nat) (st : σ), stopFlag (runBreak step stopFlag st es) = false →
      mark (runBreak step stopFlag st es) = mark st := by
  intro es
  induction es with
  | nil => intro st _; rfl
  | cons e rest ih =>
    intro st h
    cases hflag : stopFlag (step st e) with
    | true =>
      have hrun : runBreak step stopFlag st (e :: rest) = step st e := by
        simp [runBreak, hflag]
      rw [hrun] at h
      rw [h] at hflag
      exact absurd hflag (by simp)
    | false =>
      have hrun : runBreak step stopFlag st (e :: rest) =
          runBreak step stopFlag (step st e) rest := by
        simp [runBreak, hflag]
      rw [hrun] at h ⊢
      rw [ih (step st e) h, hstep st e hflag]

/-! ## Step lemmas for the two training loops -/

/-- Every epoch that the loop body processes is logged, evaluated or not. -/
theorem slEpochStep_epochsRun (cfg : SLCfg) (nll : Nat → ℚ) (st : SLState)
    (e : Nat) : (slEpochStep cfg nll st e).epochsRun = st.epochsRun ++ [e] := by
  by_cases h : e % cfg.loggingEpochFreq = 0 <;>
    simp [slEpochStep, slEvalStep, h]

/-- An epoch step that does not raise the stop flag leaves the stop location
unchanged. -/
theorem slEpochStep_stop_mark (cfg : SLCfg) (nll : Nat → ℚ) (st : SLState)
    (e : Nat) : (slEpochStep cfg nll st e).stopped = false →
      (slEpochStep cfg nll st e).stoppedAt = st.stoppedAt := by
  by_cases h : e % cfg.loggingEpochFreq = 0 <;>
    simp [slEpochStep, slEvalStep, h]
  intro hob
  simp [hob]

/-- An epoch step of a still-running loop that raises the stop flag records
its own epoch as the stop location. -/
theorem slEpochStep_stop_here (cfg : SLCfg) (nll : Nat → ℚ) (st : SLState)
    (e : Nat) (h1 : st.stopped = false) :
    (slEpochStep cfg nll st e).stopped = true →
      (slEpochStep cfg nll st e).stoppedAt = some e := by
  by_cases h : e % cfg.loggingEpochFreq = 0 <;>
    simp [slEpochStep, slEvalStep, h, h1]
  intro hob
  simp [hob]

/-- Every gradient iteration the transition-model loop body processes is
logged. -/
theorem tmStep_itersRun (loss : Nat → ℚ) (st : TMState) (i : Nat) :
    (tmStep loss st i).itersRun = st.itersRun ++ [i] := rfl

/-- A gradient iteration that does not raise the stop flag leaves the stop
location unchanged. -/
theorem tmStep_stop_mark (loss : Nat → ℚ) (st : TMState) (i : Nat) :
    (tmStep loss st i).stopped = false →
      (tmStep loss st i).stoppedAt = st.stoppedAt := by
  simp [tmStep]
  intro hob
  simp [hob]

/-- A gradient iteration that raises the stop flag records its own index as
the stop location. -/
theorem tmStep_stop_here (loss : Nat → ℚ) (st : TMState) (i : Nat) :
    (tmStep loss st i).stopped = true →
      (tmStep loss st i).stoppedAt = some i := by
  simp [tmStep]
  intro hob
  simp [hob]

/-- If the supervised run records a stop at epoch `e`, then exactly the
epochs `0, ..., e` ran. -/
theorem slTrain_stop_run (cfg : SLCfg) (nll : Nat → ℚ) (e : Nat)
    (h : (slTrain cfg nll).stoppedAt = some e) :
    (slTrain cfg nll).epochsRun = List.range (e + 1) := by
  obtain ⟨k, hk, hitems, _, htrue⟩ :=
    runBreak_take (slEpochStep cfg nll) SLState.stopped SLState.epochsRun
      (slEpochStep_epochsRun cfg nll) (List.range cfg.nEpochs) (slInit cfg) rfl
  cases hstop : (slTrain cfg nll).stopped with
  | false =>
    have hmark := runBreak_mark (slEpochStep cfg nll) SLState.stopped
      SLState.stoppedAt (slEpochStep_stop_mark cfg nll)
      (List.range cfg.nEpochs) (slInit cfg) hstop
    rw [show (slTrain cfg nll) = runBreak (slEpochStep cfg nll) SLState.stopped
        (slInit cfg) (List.range cfg.nEpochs) from rfl] at h
    rw [hmark] at h
    exact absurd h (by simp [slInit])
  | true =>
    rw [show (slTrain cfg nll) = runBreak (slEpochStep cfg nll) SLState.stopped
        (slInit cfg) (List.range cfg.nEpochs) from rfl]
    obtain ⟨hk1, st0, e', hget, heq, hst0⟩ := htrue hstop
    have he' : (runBreak (slEpochStep cfg nll) SLState.stopped (slInit cfg)
        (List.range cfg.nEpochs)).stoppedAt = some e' := by
      rw [heq]
      exact slEpochStep_stop_here cfg nll st0 e' hst0 (by rw [← heq]; exact hstop)
    have h2 : (runBreak (slEpochStep cfg nll) SLState.stopped (slInit cfg)
        (List.range cfg.nEpochs)).stoppedAt = some e := h
    rw [h2] at he'
    obtain ⟨hlt, hval⟩ := List.getElem?_eq_some.1 hget
    rw [List.getElem_range] at hval
    rw [List.length_range] at hlt
    have hke : k = e + 1 := by
      have : e = e' := by injection he'
      omega
    rw [List.length_range] at hk
    rw [hitems, hke, List.take_range]
    have hmin : (e + 1) ⊓ cfg.nEpochs = e + 1 := by omega
    rw [hmin]
    simp [slInit]

/-- If the transition-model loop records a stop at iteration `i`, then
exactly the iterations `0, ..., i` ran. -/
theorem train_fn_stop_run (patience numIterations : Nat) (loss : Nat → ℚ)
    (i : Nat) (h : (train_fn patience numIterations loss).stoppedAt = some i) :
    (train_fn patience numIterations loss).itersRun = List.range (i + 1) := by
  obtain ⟨k, hk, hitems, _, htrue⟩ :=
    runBreak_take (tmStep loss) TMState.stopped TMState.itersRun
      (tmStep_itersRun loss) (List.range numIterations)
      { stopper := EarlyStopper.init patience, itersRun := [],
        stopped := false, stoppedAt := none } rfl
  cases hstop : (train_fn patience numIterations loss).stopped with
  | false =>
    have hmark := runBreak_mark (tmStep loss) TMState.stopped TMState.stoppedAt
      (tmStep_stop_mark loss) (List.range numIterations)
      { stopper := EarlyStopper.init patience, itersRun := [],
        stopped := false, stoppedAt := none } hstop
    rw [show (train_fn patience numIterations loss) = runBreak (tmStep loss)
        TMState.stopped
        { stopper := EarlyStopper.init patience, itersRun := [],
          stopped := false, stoppedAt := none }
        (List.range numIterations) from rfl] at h
    rw [hmark] at h
    exact absurd h (by simp)
  | true =>
    rw [show (train_fn patience numIterations loss) = runBreak (tmStep loss)
        TMState.stopped
        { stopper := EarlyStopper.init patience, itersRun := [],
          stopped := false, stoppedAt := none }
        (List.range numIterations) from rfl]
    obtain ⟨hk1, st0, i', hget, heq, _⟩ := htrue hstop
    have hi' : (runBreak (tmStep loss) TMState.stopped
        { stopper := EarlyStopper.init patience, itersRun := [],
          stopped := false, stoppedAt := none }
        (List.range numIterations)).stoppedAt = some i' := by
      rw [heq]
      exact tmStep_stop_here loss st0 i' (by rw [← heq]; exact hstop)
    have h2 : (runBreak (tmStep loss) TMState.stopped
        { stopper := EarlyStopper.init patience, itersRun := [],
          stopped := false, stoppedAt := none }
        (List.range numIterations)).stoppedAt = some i := h
    rw [h2] at hi'
    obtain ⟨hlt, hval⟩ := List.getElem?_eq_some.1 hget
    rw [List.getElem_range] at hval
    rw [List.length_range] at hlt
    have hki : k = i + 1 := by
      have : i = i' := by injection hi'
      omega
    rw [List.length_range] at hk
    rw [hitems, hki, List.take_range]
    have hmin : (i + 1) ⊓ numIterations = i + 1 := by omega
    rw [hmin]
    simp

/-- The transition-model loop runs at most `num_iterations` gradient
iterations. -/
theorem train_fn_length (patience numIterations : Nat) (loss : Nat → ℚ) :
    (train_fn patience numIterations loss).itersRun.length ≤ numIterations := by
  obtain ⟨k, hk, hitems, _, _⟩ :=
    runBreak_take (tmStep loss) TMState.stopped TMState.itersRun
      (tmStep_itersRun loss) (List.range numIterations)
      { stopper := EarlyStopper.init patience, itersRun := [],
        stopped := false, stoppedAt := none } rfl
  rw [show (train_fn patience numIterations loss) = runBreak (tmStep loss)
      TMState.stopped
      { stopper := EarlyStopper.init patience, itersRun := [],
        stopped := false, stoppedAt := none }
      (List.range numIterations) from rfl, hitems]
  simp [List.length_take]

/-! ## Lemmas about the RL episode loop -/

/-- During a warm-up episode every collected event is a uniform random
action of the episode, drawn with bounds `-1, 1` and the action spec's
shape and dtype. -/
theorem collectLoop_warm_mem (cfg : RLCfg) (inp : RLInputs) (ep : Nat)
    (h : ep < cfg.initRandomEpisodes) :
    ∀ (fuel t d : Nat), ∀ ev ∈ (collectLoop cfg inp ep fuel t d).1,
      ∃ t' d', ev = RLEvent.randomAct ep t' (-1) 1
          (npUniform inp.rng d' cfg.actionShape cfg.actionDtype) := by
  intro fuel
  induction fuel with
  | zero => intro t d ev hev; simp [collectLoop] at hev
  | succ n ih =>
    intro t d ev hev
    simp only [collectLoop, h, if_true, List.mem_cons] at hev
    rcases hev with hev | hev
    · exact ⟨t, d, hev⟩
    · exact ih (t + 1) (d + cfg.actionShape) ev hev

/-- The collection loop produces one action event per remaining step. -/
theorem collectLoop_length (cfg : RLCfg) (inp : RLInputs) (ep : Nat) :
    ∀ (fuel t d : Nat), (collectLoop cfg inp ep fuel t d).1.length = fuel := by
  intro fuel
  induction fuel with
  | zero => intro t d; rfl
  | succ n ih =>
    intro t d
    by_cases h : ep < cfg.initRandomEpisodes <;> simp [collectLoop, h, ih]

/-- The collection loop never calls `agent.train`. -/
theorem collectLoop_notTrain (cfg : RLCfg) (inp : RLInputs) (ep : Nat) :
    ∀ (fuel t d : Nat), ∀ ev ∈ (collectLoop cfg inp ep fuel t d).1,
      ev.isTrain = false := by
  intro fuel
  induction fuel with
  | zero => intro t d ev hev; simp [collectLoop] at hev
  | succ n ih =>
    intro t d ev hev
    by_cases h : ep < cfg.initRandomEpisodes
    · simp only [collectLoop, h, if_true, List.mem_cons] at hev
      rcases hev with hev | hev
      · simp [hev, RLEvent.isTrain]
      · exact ih (t + 1) (d + cfg.actionShape) ev hev
    · simp only [collectLoop, h, if_false, List.mem_cons] at hev
      rcases hev with hev | hev
      · simp [hev, RLEvent.isTrain]
      · exact ih (t + 1) d ev hev

/-- A warm-up episode's collection does not depend on the agent oracle. -/
theorem collectLoop_agent_eq (cfg : RLCfg) (rng : Nat → ℚ) (len : Nat → Nat)
    (a1 a2 : Nat → Nat → Action) (ep : Nat)
    (h : ep < cfg.initRandomEpisodes) :
    ∀ (fuel t d : Nat),
      collectLoop cfg ⟨rng, a1, len⟩ ep fuel t d =
        collectLoop cfg ⟨rng, a2, len⟩ ep fuel t d := by
  intro fuel
  induction fuel with
  | zero => intro t d; rfl
  | succ n ih => intro t d; simp [collectLoop, h, ih]

/-- A policy episode's collection never advances the RNG draw counter. -/
theorem collectLoop_policy_snd (cfg : RLCfg) (inp : RLInputs) (ep : Nat)
    (h : cfg.initRandomEpisodes ≤ ep) :
    ∀ (fuel t d : Nat), (collectLoop cfg inp ep fuel t d).2 = d := by
  have h' : ¬ ep < cfg.initRandomEpisodes := Nat.not_lt.mpr h
  intro fuel
  induction fuel with
  | zero => intro t d; rfl
  | succ n ih => intro t d; simp [collectLoop, h', ih]

/-- A policy episode's collection produces no random-action event. -/
theorem collectLoop_policy_payload (cfg : RLCfg) (inp : RLInputs) (ep : Nat)
    (h : cfg.initRandomEpisodes ≤ ep) :
    ∀ (fuel t d : Nat),
      List.filterMap RLEvent.randomPayload
        (collectLoop cfg inp ep fuel t d).1 = [] := by
  have h' : ¬ ep < cfg.initRandomEpisodes := Nat.not_lt.mpr h
  intro fuel
  induction fuel with
  | zero => intro t d; rfl
  | succ n ih =>
    intro t d
    simp [collectLoop, h', RLEvent.randomPayload, ih]

/-- The per-episode random-action sequences of a run do not depend on the
agent oracle. -/
theorem rlEpisodes_agent_eq (cfg : RLCfg) (rng : Nat → ℚ) (len : Nat → Nat)
    (a1 a2 : Nat → Nat → Action) :
    ∀ (eps : List Nat) (d : Nat),
      (rlEpisodes cfg ⟨rng, a1, len⟩ eps d).map
          (fun evs => evs.filterMap RLEvent.randomPayload) =
        (rlEpisodes cfg ⟨rng, a2, len⟩ eps d).map
          (fun evs => evs.filterMap RLEvent.randomPayload) := by
  intro eps
  induction eps with
  | nil => intro d; rfl
  | cons ep rest ih =>
    intro d
    by_cases h : ep < cfg.initRandomEpisodes
    · have hcoll := collectLoop_agent_eq cfg rng len a1 a2 ep h (len ep) 0 d
      simp [rlEpisodes, episodeRun, hcoll, ih]
    · have h' : cfg.initRandomEpisodes ≤ ep := Nat.le_of_not_lt h
      simp [rlEpisodes, episodeRun, List.filterMap_append,
        collectLoop_policy_payload cfg ⟨rng, a1, len⟩ ep h',
        collectLoop_policy_payload cfg ⟨rng, a2, len⟩ ep h',
        collectLoop_policy_snd cfg ⟨rng, a1, len⟩ ep h',
        collectLoop_policy_snd cfg ⟨rng, a2, len⟩ ep h',
        RLEvent.randomPayload, ih]

/-! ## Claim theorems -/

/-- C1, counterexample: with patience 3 and the metric sequence
[1.0, 0.9, 0.95, 0.96, 0.97], the observation results are
[false, false, false, false, true] — the 4th observation (value 0.96, list
index 3) returns false, so the stop signal does not fire at the 4th
observation as claimed; it fires only at the 5th (the third consecutive
non-improvement after the best value 0.9). -/
theorem c1_counterexample :
    ((EarlyStopper.init 3).observeSeq [1, mkRat 9 10, mkRat 95 100, mkRat 96 100, mkRat 97 100])[3]? =
      some false := by decide

/-- C1, amended: an improving observation (including the first, against the
initial `+inf` best) returns false and resets the counter to zero; a
non-improving observation increments the counter and returns true exactly
when the count of consecutive non-improving observations has reached
`patience`; and with patience 3 and metric sequence
[1.0, 0.9, 0.95, 0.96, 0.97] the stop signal fires at the 5th observation
and at no earlier one. -/
theorem c1_early_stopper :
    (∀ (s : EarlyStopper) (b m : ℚ), s.best = some b → m < b →
        (s.observe m).1 = false ∧ (s.observe m).2.counter = 0) ∧
    (∀ (s : EarlyStopper) (m : ℚ), s.best = none →
        (s.observe m).1 = false ∧ (s.observe m).2.counter = 0) ∧
    (∀ (s : EarlyStopper) (b m : ℚ), s.best = some b → b ≤ m →
        (s.observe m).2.counter = s.counter + 1 ∧
          ((s.observe m).1 = true ↔ s.patience ≤ s.counter + 1)) ∧
    (EarlyStopper.init 3).observeSeq [1, mkRat 9 10, mkRat 95 100, mkRat 96 100, mkRat 97 100] =
      [false, false, false, false, true] := by
  refine ⟨?_, ?_, ?_, by decide⟩
  · intro s b m hb hm
    simp [EarlyStopper.observe, hb, hm]
  · intro s m hb
    simp [EarlyStopper.observe, hb]
  · intro s b m hb hm
    simp [EarlyStopper.observe, hb, not_lt.mpr hm]

/-- C1, witness: the amended theorem applied at concrete stopper states. -/
theorem c1_witness :
    ((⟨3, 0, some 1⟩ : EarlyStopper).observe (mkRat 1 2)).1 = false ∧
    ((⟨3, 0, some 1⟩ : EarlyStopper).observe 5).2.counter = 0 + 1 ∧
    ((⟨3, 2, some 1⟩ : EarlyStopper).observe 5).1 = true ∧
    ((EarlyStopper.init 3).observe 7).1 = false :=
  ⟨(c1_early_stopper.1 ⟨3, 0, some 1⟩ 1 (mkRat 1 2) rfl (by decide)).1,
   (c1_early_stopper.2.2.1 ⟨3, 0, some 1⟩ 1 5 rfl (by decide)).1,
   (c1_early_stopper.2.2.1 ⟨3, 2, some 1⟩ 1 5 rfl (by decide)).2.mpr
     (by decide),
   (c1_early_stopper.2.1 (EarlyStopper.init 3) 7 rfl).1⟩

/-- C2: at an evaluation point, `checkpoint` is called (appending the
fixed path under the run directory) and `best_nll` updated if and only if
the validation nll is strictly below the best seen so far, the best
starting at `+inf` (so the first evaluation always saves); and in the
concrete run `c2Cfg`/`c2Nll`, where the best improves strictly exactly
twice, `checkpoint` is called exactly twice and both calls write the same
path. -/
theorem c2_checkpoint_policy :
    (∀ (cfg : SLCfg) (st : SLState) (e : Nat) (v b : ℚ), st.bestNll = some b →
        (v < b →
          (slEvalStep cfg st e v).ckpts = st.ckpts ++ [e] ∧
          (slEvalStep cfg st e v).ckptPaths =
            st.ckptPaths ++ [pathJoin cfg.saveDir "best_ckpt_dict.pt"] ∧
          (slEvalStep cfg st e v).bestNll = some v) ∧
        (b ≤ v →
          (slEvalStep cfg st e v).ckpts = st.ckpts ∧
          (slEvalStep cfg st e v).ckptPaths = st.ckptPaths ∧
          (slEvalStep cfg st e v).bestNll = st.bestNll)) ∧
    (∀ (cfg : SLCfg) (st : SLState) (e : Nat) (v : ℚ), st.bestNll = none →
        (slEvalStep cfg st e v).ckpts = st.ckpts ++ [e] ∧
        (slEvalStep cfg st e v).bestNll = some v) ∧
    ((slTrain c2Cfg c2Nll).ckpts.length = 2 ∧
      (slTrain c2Cfg c2Nll).ckptPaths =
        [pathJoin "run" "best_ckpt_dict.pt",
          pathJoin "run" "best_ckpt_dict.pt"]) := by
  refine ⟨?_, ?_, by decide, by decide⟩
  · intro cfg st e v b hb
    constructor
    · intro hv
      simp [slEvalStep, checkpoint, pathJoin, hb, hv]
    · intro hv
      simp [slEvalStep, hb, not_lt.mpr hv]
  · intro cfg st e v hb
    simp [slEvalStep, hb]

/-- C2, witness: the checkpoint-policy theorem applied at a concrete
evaluation state with best nll 5 and new nll 3. -/
theorem c2_witness :
    (slEvalStep c2Cfg c2St 0 3).ckpts = c2St.ckpts ++ [0] ∧
    (slEvalStep c2Cfg c2St 0 3).ckptPaths =
      c2St.ckptPaths ++ [pathJoin c2Cfg.saveDir "best_ckpt_dict.pt"] ∧
    (slEvalStep c2Cfg c2St 0 3).bestNll = some 3 :=
  (c2_checkpoint_policy.1 c2Cfg c2St 0 3 5 rfl).1 (by norm_num)

/-- C3: every call of `checkpoint` writes a single file whose content is a
mapping with exactly the keys "model" (the model's state) and "optimizer"
(the optimizer's state), at the path `save_dir` joined with the fixed
filename "best_ckpt_dict.pt"; the call returns that path, and the path does
not depend on the states, so repeated saves into the same directory
overwrite one path. -/
theorem c3_checkpoint_file (m o d : String) :
    (checkpoint m o d).1.content.map Prod.fst = ["model", "optimizer"] ∧
    (checkpoint m o d).1.content = [("model", m), ("optimizer", o)] ∧
    (checkpoint m o d).1.path = pathJoin d "best_ckpt_dict.pt" ∧
    (checkpoint m o d).2 = (checkpoint m o d).1.path ∧
    ∀ m' o', (checkpoint m' o' d).1.path = (checkpoint m o d).1.path :=
  ⟨rfl, rfl, rfl, rfl, fun _ _ => rfl⟩

/-- C4: in the supervised loop the early stopper is consulted exactly at
the evaluation points (epochs whose index is a multiple of
`logging_epoch_freq`); if the supervised run stops at epoch `e`, exactly
the epochs `0, ..., e` ran (no further collection or optimisation); the
transition-model loop runs at most `num_iterations` gradient iterations;
and if it stops at iteration `i`, exactly the iterations `0, ..., i` ran. -/
theorem c4_early_stop_break :
    (∀ (cfg : SLCfg) (nll : Nat → ℚ) (st : SLState) (e : Nat),
        (slEpochStep cfg nll st e).stopperCalls =
          st.stopperCalls ++
            (if e % cfg.loggingEpochFreq = 0 then [e] else [])) ∧
    (∀ (cfg : SLCfg) (nll : Nat → ℚ) (e : Nat),
        (slTrain cfg nll).stoppedAt = some e →
          (slTrain cfg nll).epochsRun = List.range (e + 1)) ∧
    (∀ (patience numIterations : Nat) (loss : Nat → ℚ),
        (train_fn patience numIterations loss).itersRun.length ≤
          numIterations) ∧
    (∀ (patience numIterations : Nat) (loss : Nat → ℚ) (i : Nat),
        (train_fn patience numIterations loss).stoppedAt = some i →
          (train_fn patience numIterations loss).itersRun =
            List.range (i + 1)) := by
  refine ⟨?_, slTrain_stop_run, train_fn_length, train_fn_stop_run⟩
  intro cfg nll st e
  by_cases h : e % cfg.loggingEpochFreq = 0 <;>
    simp [slEpochStep, slEvalStep, h]

/-- C4, witness: a supervised run that stops at epoch 1 ran exactly epochs
0 and 1, and a transition-model run that stops at iteration 1 ran exactly
iterations 0 and 1. -/
theorem c4_witness :
    (slTrain c4Cfg c4Nll).epochsRun = List.range 2 ∧
    (train_fn 1 10 c4Loss).itersRun = List.range 2 :=
  ⟨c4_early_stop_break.2.1 c4Cfg c4Nll 1 (by decide),
   c4_early_stop_break.2.2.2 1 10 c4Loss 1 (by decide)⟩

/-- C5: two RL driver runs over the same environment whose numpy streams
agree — as they do under a fixed random seed — produce identical action
sequences during the warm-up (random-action) phase, whatever the agent does
elsewhere; and the determinism flag the driver sets is the misspelled
attribute name "determinstic", which Python attribute assignment records as
a new attribute, leaving the backend's real `deterministic` flag unchanged
(while `benchmark` really is set to false). -/
theorem c5_warmup_determinism :
    (∀ (cfg : RLCfg) (rng : Nat → ℚ) (len : Nat → Nat)
        (a1 a2 : Nat → Nat → Action),
        warmupActions cfg ⟨rng, a1, len⟩ = warmupActions cfg ⟨rng, a2, len⟩) ∧
    (∀ b : CudnnBackend, (rlSetCudnnFlags b).deterministic = b.deterministic) ∧
    (∀ b : CudnnBackend, ("determinstic", true) ∈ (rlSetCudnnFlags b).extra) ∧
    (∀ b : CudnnBackend, (rlSetCudnnFlags b).benchmark = false) ∧
    "determinstic" ≠ "deterministic" := by
  refine ⟨?_, ?_, ?_, ?_, by decide⟩
  · intro cfg rng len a1 a2
    unfold warmupActions rlRun
    rw [rlEpisodes_agent_eq cfg rng len a1 a2 (List.range cfg.numTrainEpisodes) 0]
  · intro b
    simp [rlSetCudnnFlags, CudnnBackend.setAttr]
  · intro b
    simp [rlSetCudnnFlags, CudnnBackend.setAttr]
  · intro b
    simp [rlSetCudnnFlags, CudnnBackend.setAttr]

/-- C6: in a warm-up episode (index below `cfg.init_random_episodes`) every
event of the episode is a random action of that episode drawn by
`np.random.uniform(-1, 1, ...)` — the policy is never consulted and no
train call occurs; `npUniform` produces actions with the action spec's
shape and dtype; `agent.train` is called exactly once per episode with
index at least `cfg.init_random_episodes` and never otherwise; and each
episode consists of its full `episodeLen` collection steps followed — only
then — by the train call when one occurs. -/
theorem c6_rl_driver :
    (∀ (cfg : RLCfg) (inp : RLInputs) (ep d : Nat),
        ep < cfg.initRandomEpisodes →
        ∀ ev ∈ (episodeRun cfg inp ep d).1, ∃ t' d',
          ev = RLEvent.randomAct ep t' (-1) 1
            (npUniform inp.rng d' cfg.actionShape cfg.actionDtype)) ∧
    (∀ (rng : Nat → ℚ) (d shape : Nat) (dt : String),
        (npUniform rng d shape dt).vals.length = shape ∧
          (npUniform rng d shape dt).dtype = dt) ∧
    (∀ (cfg : RLCfg) (inp : RLInputs) (ep d : Nat),
        (episodeRun cfg inp ep d).1.filter RLEvent.isTrain =
          if cfg.initRandomEpisodes ≤ ep then [RLEvent.trainCall ep]
          else []) ∧
    (∀ (cfg : RLCfg) (inp : RLInputs) (ep d : Nat), ∃ acts,
        (episodeRun cfg inp ep d).1 =
            acts ++
              (if cfg.initRandomEpisodes ≤ ep then [RLEvent.trainCall ep]
                else []) ∧
          acts.length = inp.episodeLen ep ∧
          ∀ ev ∈ acts, ev.isTrain = false) := by
  refine ⟨?_, ?_, ?_, ?_⟩
  · intro cfg inp ep d hep ev hev
    have hnot : ¬ cfg.initRandomEpisodes ≤ ep := Nat.not_le.mpr hep
    simp only [episodeRun, hnot, if_false, List.append_nil] at hev
    exact collectLoop_warm_mem cfg inp ep hep (inp.episodeLen ep) 0 d ev hev
  · intro rng d shape dt
    exact ⟨by simp [npUniform], rfl⟩
  · intro cfg inp ep d
    have hfil : (collectLoop cfg inp ep (inp.episodeLen ep) 0 d).1.filter
        RLEvent.isTrain = [] :=
      List.filter_eq_nil_iff.mpr (fun ev hev => by
        rw [collectLoop_notTrain cfg inp ep (inp.episodeLen ep) 0 d ev hev]
        simp)
    by_cases h : cfg.initRandomEpisodes ≤ ep <;>
      simp [episodeRun, h, List.filter_append, hfil, RLEvent.isTrain]
  · intro cfg inp ep d
    exact ⟨(collectLoop cfg inp ep (inp.episodeLen ep) 0 d).1, rfl,
      collectLoop_length cfg inp ep (inp.episodeLen ep) 0 d,
      collectLoop_notTrain cfg inp ep (inp.episodeLen ep) 0 d⟩

/-- C6, witness: the warm-up characterisation applied to the first event of
the small concrete run (episode 0 is a warm-up episode). -/
theorem c6_witness :
    ∃ t' d',
      RLEvent.randomAct 0 0 (-1) 1 { vals := [0, 1], dtype := "float32" } =
        RLEvent.randomAct 0 t' (-1) 1
          (npUniform c6Inp.rng d' c6Cfg.actionShape c6Cfg.actionDtype) :=
  c6_rl_driver.1 c6Cfg c6Inp 0 0 (by decide)
    (RLEvent.randomAct 0 0 (-1) 1 { vals := [0, 1], dtype := "float32" })
    (by decide)

/-- C7: the supervised loop evaluates validation/test metrics at an epoch
exactly when the epoch index is a multiple of `logging_epoch_freq` (index 0
included); in particular with `logging_epoch_freq = 5` and `n_epochs = 12`
and a never-signalling early stopper, exactly 3 evaluation events occur, at
epochs 0, 5 and 10. -/
theorem c7_evaluation_epochs :
    (∀ (cfg : SLCfg) (nll : Nat → ℚ) (st : SLState) (e : Nat),
        (slEpochStep cfg nll st e).evals =
          st.evals ++ (if e % cfg.loggingEpochFreq = 0 then [e] else [])) ∧
    ((slTrain c7Cfg c7Nll).evals = [0, 5, 10] ∧
      (slTrain c7Cfg c7Nll).evals.length = 3) := by
  refine ⟨?_, by decide, by decide⟩
  intro cfg nll st e
  by_cases h : e % cfg.loggingEpochFreq = 0 <;>
    simp [slEpochStep, slEvalStep, h]

/-- C8, counterexample: if `set_seed_everywhere` fails on every seed, the
retry inside the `except:` block fails as well and the error propagates to
the caller — refuting the claim that no seed-initialisation error
propagates. -/
theorem c8_counterexample :
    seedInit (fun _ => Except.error "seed failure") 42 7 =
      Except.error "seed failure" := rfl

/-- C8, amended: if the first `set_seed_everywhere(cfg.random_seed)` call
succeeds the run continues normally; if it raises, the exception is caught,
a fresh seed is drawn (`random.randint(0, 10000)`, inclusive) and
`set_seed_everywhere` is called with the fresh seed, whose outcome — success
or a propagating exception — becomes the outcome of seed initialisation:
only first-call errors are recovered. -/
theorem c8_seed_fallback (s : Nat → Except String Unit)
    (cfgSeed freshSeed : Nat) :
    (∀ u, s cfgSeed = Except.ok u →
        seedInit s cfgSeed freshSeed = Except.ok ()) ∧
    (∀ e, s cfgSeed = Except.error e →
        seedInit s cfgSeed freshSeed = s freshSeed) := by
  constructor
  · intro u h; simp [seedInit, h]
  · intro e h; simp [seedInit, h]

/-- C8, witness: a call that fails on the configured seed 0 but succeeds on
the fresh seed 3 recovers. -/
theorem c8_witness :
    seedInit (fun n => if n = 0 then Except.error "boom" else Except.ok ())
        0 3 =
      (fun n => if n = 0 then (Except.error "boom" : Except String Unit)
        else Except.ok ()) 3 :=
  (c8_seed_fallback
      (fun n => if n = 0 then Except.error "boom" else Except.ok ()) 0 3).2
    "boom" rfl

/-- C9, counterexample: the `TransitionModel` NamedTuple declared in
`src/models/transitions/base.py` does not have the three fields
predict/train/update — it has no `update` field. -/
theorem c9_counterexample :
    TransitionModel.fieldNames ≠ ["predict", "train", "update"] := by decide

/-- C9, amended: the RL transition-model record constructed by `init` in
`mlp.py` bundles exactly the three functions predict, train and update,
while the `TransitionModel` NamedTuple in `src/models/transitions/base.py`
exposes exactly the two fields predict and train. -/
theorem c9_record_fields :
    TransitionModel.fieldNames = ["predict", "train"] ∧
    RLTransitionModel.fieldNames = ["predict", "train", "update"] :=
  ⟨rfl, rfl⟩

/-- C10: for every state and action, `predict_fn` returns a
`StatePrediction` whose `state_mean` is the state plus the network output
on the concatenated state-action input, and whose `state_var` and
`noise_var` are both exactly 0. -/
theorem c10_predict_fn (network : List ℚ → List ℚ) (state action : List ℚ) :
    (predict_fn network state action).state_mean =
      vecAdd state (network (state ++ action)) ∧
    (predict_fn network state action).state_var = 0 ∧
    (predict_fn network state action).noise_var = 0 :=
  ⟨rfl, rfl, rfl⟩

end Sfr
